import Mathlib

/-!
# term-todo: the item store, the items view and the application state machine

A shallow embedding of the Go packages `todo` (todo.go), `itemstab`
(itemstab.go) and `main` (main.go).

The Go code is a thin layer over libraries: gorm on SQLite (the store), the
bubbletea event loop, and the bubbles `table`, `textinput` and `textarea`
widgets.  The parts of those libraries the program relies on are modelled,
from their documented behaviour, in the namespaces `gorm`, `tea`, `table`,
`textinput`, `textarea` and `bubbles`; every function of the repository
itself is embedded under its own name in `todo`, `itemstab` and `main`.

Go values of type `(T, error)` are pairs `T × Option _`; a Go pointer that
may be nil is an `Option`; a panic or `log.Fatal` is an `Except.error`.
-/

/-- Ways in which the Go process stops instead of returning from a call: the
three runtime panics the program can raise and `log.Fatal`.  The last
alternative is not a Go failure: it marks a run of the event-loop model
(`main.dispatch`) that was given too little fuel to deliver every message. -/
inductive Failure where
  | nilPointer
  | indexOutOfRange
  | divideByZero
  | fatal
  | outOfFuel
  deriving DecidableEq, Repr

/-- Go `int` arithmetic on a 64-bit platform: results wrap in two's complement. -/
def wrapInt (x : Int) : Int :=
  (x + 9223372036854775808) % 18446744073709551616 - 9223372036854775808

namespace todo

/-- The constant `ItemsPerPage` of todo.go. -/
def ItemsPerPage : Int := 20

/-- The struct `TodoItem` of todo.go.  `ID` and `Deleted` come from the embedded
`gorm.Model`: `ID` is the primary key (0 means "not assigned yet") and `Deleted`
says whether `DeletedAt` is set (gorm's soft-delete marker).  The timestamps
`CreatedAt` and `UpdatedAt` are not represented. -/
structure TodoItem where
  ID : Nat
  Deleted : Bool
  Description : String
  Done : Bool
  deriving DecidableEq, Repr

end todo

namespace gorm

open todo

/-- The SQLite table `todo_items`: all rows, soft-deleted ones included, in
rowid order.  `id` is the INTEGER PRIMARY KEY, hence the rowid, so a table scan
and `ORDER BY id` both follow the order of this list. -/
abbrev Table := List TodoItem

/-- The gorm errors the program can meet. -/
inductive Err where
  | ErrRecordNotFound
  | ErrMissingWhereClause
  | ErrInvalidValue
  | ErrUniqueConstraint
  deriving DecidableEq, Repr

/-- Integrity of the table as SQLite and gorm maintain it: primary keys are
strictly increasing along the rowid order (in particular pairwise distinct) and
never 0 (gorm treats 0 as "no key" and lets SQLite assign one, starting at 1). -/
def WF (t : Table) : Prop :=
  (t.map (fun r => r.ID)).Pairwise (fun a b => a < b) ∧ ∀ r ∈ t, r.ID ≠ 0

instance (t : Table) : Decidable (WF t) := by
  unfold WF; infer_instance

/-- The key SQLite assigns to a row inserted without one: one more than the
largest key in the table (rows are never physically removed, so this is also
what AUTOINCREMENT yields). -/
def nextID (t : Table) : Nat :=
  (t.map (fun r => r.ID)).foldr max 0 + 1

/-- Insertion of a row with an explicit key at its place in rowid order. -/
def insertRow (r : TodoItem) : Table → Table
  | [] => [r]
  | x :: xs => if r.ID < x.ID then r :: x :: xs else x :: insertRow r xs

/-- A `*gorm.DB` value: the statement under construction (the clauses added by
the chain methods) together with the outcome of the last executed statement. -/
structure DB where
  whereDescription : Option String
  limit : Option Int
  offset : Option Int
  Error : Option Err
  deriving DecidableEq, Repr

/-- The handle stored in the global `db` after `gorm.Open`: no clauses, no error. -/
def DB.fresh : DB :=
  { whereDescription := none, limit := none, offset := none, Error := none }

/-- Chain method `Where("Description = ?", d)`: adds the condition, runs nothing. -/
def DB.Where (db : DB) (d : String) : DB :=
  { db with whereDescription := some d }

/-- Chain method `Limit(n)`: adds the clause to the statement, runs nothing. -/
def DB.Limit (db : DB) (n : Int) : DB :=
  { db with limit := some n }

/-- Chain method `Offset(n)`: adds the clause to the statement, runs nothing. -/
def DB.Offset (db : DB) (n : Int) : DB :=
  { db with offset := some n }

/-- Rows a query built on `db` selects before OFFSET and LIMIT: the rows that are
not soft-deleted (`deleted_at IS NULL` is added to every query on a model with
`DeletedAt`) and satisfy the `Where` condition, in rowid order. -/
def DB.selected (db : DB) (t : Table) : List TodoItem :=
  t.filter (fun r => !r.Deleted &&
    (match db.whereDescription with
     | some d => decide (r.Description = d)
     | none => true))

/-- Finisher method `Find(&items)`: runs the query with the clauses present on
the statement at the time of the call and stores the rows in `items`.  A query
without rows is not an error.  It returns the same handle, so methods chained
after it only touch a statement that has already run. -/
def DB.Find (db : DB) (t : Table) : DB × List TodoItem :=
  let rows := db.selected t
  let rows := match db.offset with
    | some n => if 0 < n then rows.drop n.toNat else rows
    | none => rows
  let rows := match db.limit with
    | some n => if 0 ≤ n then rows.take n.toNat else rows
    | none => rows
  ({ db with Error := none }, rows)

/-- Finisher method `First(&item)`: the selected row with the smallest primary
key, or `ErrRecordNotFound` when no row is selected. -/
def DB.First (db : DB) (t : Table) : DB × Option TodoItem :=
  match (db.selected t).head? with
  | some r => ({ db with Error := none }, some r)
  | none => ({ db with Error := some Err.ErrRecordNotFound }, none)

/-- Finisher `db.Create(item)`.  Without a key the row gets the next key and is
appended; with an explicit key it is inserted under that key unless the key is
taken.  The second component is the item as the caller sees it afterwards
(gorm writes the assigned key back through the pointer). -/
def Create (t : Table) (item : TodoItem) : Table × TodoItem × Option Err :=
  if item.ID = 0 then
    let row := { item with ID := nextID t }
    (t ++ [row], row, none)
  else if t.any (fun r => r.ID == item.ID) then
    (t, item, some Err.ErrUniqueConstraint)
  else
    (insertRow item t, item, none)

/-- Finisher `db.Delete(item)` on a model with `DeletedAt`: a soft delete,
`UPDATE todo_items SET deleted_at = now WHERE id = item.ID AND deleted_at IS
NULL`.  A nil pointer is rejected with `ErrInvalidValue`, an item without a key
with `ErrMissingWhereClause`; in both cases nothing is written. -/
def Delete (t : Table) (item : Option TodoItem) : Table × Option Err :=
  match item with
  | none => (t, some Err.ErrInvalidValue)
  | some it =>
    if it.ID = 0 then (t, some Err.ErrMissingWhereClause)
    else (t.map (fun r => if r.ID = it.ID ∧ r.Deleted = false then { r with Deleted := true } else r), none)

/-- Finisher `db.Save(item)`.  Without a key it is `Create`.  With a key it
writes all fields of the item to the live row holding that key; when no live
row holds it, gorm falls back to an insert that overwrites on key conflict. -/
def Save (t : Table) (item : TodoItem) : Table × TodoItem × Option Err :=
  if item.ID = 0 then Create t item
  else if t.any (fun r => r.ID == item.ID && !r.Deleted) then
    (t.map (fun r => if r.ID = item.ID ∧ r.Deleted = false then item else r), item, none)
  else if t.any (fun r => r.ID == item.ID) then
    (t.map (fun r => if r.ID = item.ID then item else r), item, none)
  else
    (insertRow item t, item, none)

end gorm

namespace todo

open gorm

/-- The process-wide state the package works on: the global handle `db` (nil
until `Start`; afterwards open on the file of one identifier), the content of
the database file of every identifier (a file that does not exist yet behaves
as an empty table, since opening creates it and `AutoMigrate` creates the
table), and whether the file of an identifier can be opened. -/
structure World where
  db : Option String
  files : String → Table
  openable : String → Bool

/-- Table the open handle works on, written back after a statement. -/
def World.setTable (w : World) (name : String) (t : Table) : World :=
  { w with files := fun n => if n = name then t else w.files n }

/-- Go `Start` (with `db_init`): opens the database file of `identifier`, stores
the handle in the global `db` and migrates the schema.  A file that cannot be
opened ends the process through `log.Fatal`. -/
def Start (w : World) (identifier : String) : Except Failure World :=
  if w.openable identifier then .ok { w with db := some identifier }
  else .error Failure.fatal

/-- Go `AddTodo`: `db.Create(item)`; the error is dropped.  Returns the item as
the caller's pointer sees it afterwards.  A nil `db` panics. -/
def AddTodo (w : World) (item : TodoItem) : Except Failure (World × TodoItem) :=
  match w.db with
  | none => .error Failure.nilPointer
  | some name =>
    let r := Create (w.files name) item
    .ok (w.setTable name r.1, r.2.1)

/-- Go `DeleteTodo`: `db.Delete(item)`; the error is dropped.  The pointer may be
nil (`none`). -/
def DeleteTodo (w : World) (item : Option TodoItem) : Except Failure World :=
  match w.db with
  | none => .error Failure.nilPointer
  | some name => .ok (w.setTable name (Delete (w.files name) item).1)

/-- Go `UpdateTodo`: `db.Save(&item)`; the error is dropped. -/
def UpdateTodo (w : World) (item : TodoItem) : Except Failure World :=
  match w.db with
  | none => .error Failure.nilPointer
  | some name => .ok (w.setTable name (Save (w.files name) item).1)

/-- Go `ListTodos`: `db.Find(&items)` runs first, on a statement without
clauses; `Limit` and `Offset` are chained onto its result and only decide
which handle `result.Error` is read from. -/
def ListTodos (w : World) (pageNum : Int) : Except Failure (List TodoItem × Option String) :=
  match w.db with
  | none => .error Failure.nilPointer
  | some name =>
    let found := DB.fresh.Find (w.files name)
    let items := found.2
    let result := (found.1.Limit ItemsPerPage).Offset (wrapInt (ItemsPerPage * wrapInt (pageNum - 1)))
    if result.Error ≠ none then
      .ok ([], some "Database error (possibly no rows found)")
    else
      .ok (items, none)

/-- Go `FindTodo`: `db.Where("Description = ?", searchterm).First(&item)`. -/
def FindTodo (w : World) (searchterm : String) : Except Failure (Option TodoItem × Option String) :=
  match w.db with
  | none => .error Failure.nilPointer
  | some name =>
    let found := (DB.fresh.Where searchterm).First (w.files name)
    if found.1.Error ≠ none then
      if found.1.Error = some Err.ErrRecordNotFound then
        .ok (none, some "No rows found")
      else
        .ok (none, some "Database error")
    else
      .ok (found.2, none)

end todo

namespace tea

/-- Key types of `tea.KeyMsg` that the program or its widgets react to; `KeyRunes`
carries typed characters and `KeyOther` stands for every other key type. -/
inductive KeyType where
  | KeyCtrlC
  | KeyEnter
  | KeyDelete
  | KeyBackspace
  | KeyTab
  | KeyUp
  | KeyDown
  | KeyRunes (runes : List Char)
  | KeyOther (code : Nat)
  deriving DecidableEq, Repr

/-- Messages delivered to `Update`: the three message types of the program
(`loadAccountMsg` is a string, the other two are ints), key presses, and `other`
for every message type the program has no case for (for example the cursor-blink
ticks of the widgets). -/
inductive Msg where
  | loadAccountMsg (name : String)
  | UpdateTodoMsg (n : Int)
  | resetAddFormMsg (n : Int)
  | KeyMsg (key : KeyType)
  | other (tag : Nat)
  deriving DecidableEq, Repr

/-- A `tea.Cmd` as the event loop sees it: nil, a function that yields a
message, or `tea.Quit`.  Commands returned by the widgets themselves (blink
timers) are not represented; the ticks they produce are `Msg.other`. -/
inductive Cmd where
  | nil
  | send (msg : Msg)
  | Quit
  deriving DecidableEq, Repr

end tea

namespace table

/-- One row of the bubbles table: its cells. -/
abbrev Row := List String

/-- The part of the bubbles `table.Model` the program reads and writes: the rows
and the cursor (columns, focus, height and styles do not influence either). -/
structure Model where
  rows : List Row
  cursor : Int
  deriving DecidableEq, Repr

/-- The helper `clamp(v, low, high) = min(max(v, low), high)` of the table widget. -/
def clamp (v low high : Int) : Int := min (max v low) high

/-- Constructor `table.New(WithRows(rows), ...)`: the cursor starts at 0. -/
def New (rows : List Row) : Model := { rows := rows, cursor := 0 }

/-- Accessor `Cursor()`. -/
def Model.Cursor (m : Model) : Int := m.cursor

/-- Method `SetCursor(n)`: the cursor becomes `clamp(n, 0, len(rows)-1)`. -/
def Model.SetCursor (m : Model) (n : Int) : Model :=
  { m with cursor := clamp n 0 ((m.rows.length : Int) - 1) }

/-- Accessor `SelectedRow()`: the row under the cursor, or nil (`none`) when the
cursor is not the index of a row. -/
def Model.SelectedRow (m : Model) : Option Row :=
  if m.cursor < 0 ∨ m.cursor ≥ (m.rows.length : Int) then none
  else m.rows[m.cursor.toNat]?

end table

namespace textinput

/-- The part of the bubbles `textinput.Model` the program reads and writes. -/
structure Model where
  value : String
  CharLimit : Nat
  Width : Nat
  focus : Bool
  deriving DecidableEq, Repr

/-- Accessor `Value()`. -/
def Model.Value (m : Model) : String := m.value

end textinput

namespace textarea

/-- The part of the bubbles `textarea.Model` the program reads and writes. -/
structure Model where
  value : String
  Placeholder : String
  Prompt : String
  CharLimit : Nat
  width : Nat
  height : Nat
  ShowLineNumbers : Bool
  focus : Bool
  deriving DecidableEq, Repr

/-- Accessor `Value()`. -/
def Model.Value (m : Model) : String := m.value

/-- Method `Reset()`: clears the text. -/
def Model.Reset (m : Model) : Model := { m with value := "" }

end textarea

/-- The widgets' own `Update` methods, that is, what each widget does with a
message the program forwards to it.  They are a parameter: the results about
the program hold whatever the widgets do with a forwarded message. -/
structure Widgets where
  textinputUpdate : textinput.Model → tea.Msg → textinput.Model
  tableUpdate : table.Model → tea.Msg → table.Model
  textareaUpdate : textarea.Model → tea.Msg → textarea.Model

namespace bubbles

open tea

/-- Typing into a text field whose cursor is at the end: the runes are appended,
cut to the room left under `CharLimit` (0 means no limit). -/
def insertRunes (value : String) (limit : Nat) (runes : List Char) : String :=
  if limit = 0 then value ++ String.mk runes
  else value ++ String.mk (runes.take (limit - value.length))

/-- Default key handling of `textinput`: typed runes are inserted, Backspace
removes the character before the cursor.  The cursor stays at the end of the
text under the keys of `KeyType`. -/
def textinputUpdate (m : textinput.Model) (msg : Msg) : textinput.Model :=
  if m.focus then
    match msg with
    | .KeyMsg (.KeyRunes rs) => { m with value := insertRunes m.value m.CharLimit rs }
    | .KeyMsg .KeyBackspace => { m with value := String.mk m.value.toList.dropLast }
    | _ => m
  else m

/-- Default key handling of `table`: Up and Down move the cursor by one row
within the rows. -/
def tableUpdate (m : table.Model) (msg : Msg) : table.Model :=
  match msg with
  | .KeyMsg .KeyUp => { m with cursor := table.clamp (m.cursor - 1) 0 ((m.rows.length : Int) - 1) }
  | .KeyMsg .KeyDown => { m with cursor := table.clamp (m.cursor + 1) 0 ((m.rows.length : Int) - 1) }
  | _ => m

/-- Default key handling of `textarea`, for text typed at the end of the field. -/
def textareaUpdate (m : textarea.Model) (msg : Msg) : textarea.Model :=
  if m.focus then
    match msg with
    | .KeyMsg (.KeyRunes rs) => { m with value := insertRunes m.value m.CharLimit rs }
    | .KeyMsg .KeyBackspace => { m with value := String.mk m.value.toList.dropLast }
    | _ => m
  else m

/-- The widgets as the bubbles library provides them, for concrete runs. -/
def widgets : Widgets :=
  { textinputUpdate := textinputUpdate, tableUpdate := tableUpdate, textareaUpdate := textareaUpdate }

end bubbles

namespace itemstab

open tea todo

/-- The struct `Model` of itemstab.go. -/
structure Model where
  items : List TodoItem
  itemsTable : table.Model
  deriving DecidableEq, Repr

/-- Go `updateItemsTable`: one row per item, "yes"/"no" and the description; the
table is built anew, so its cursor is 0. -/
def updateItemsTable (items : List TodoItem) : table.Model :=
  table.New (items.map (fun item => [if item.Done then "yes" else "no", item.Description]))

/-- Go `New`. -/
def New : Model :=
  { items := [], itemsTable := updateItemsTable [] }

/-- Go `UpdateTodoList`: the command that yields `UpdateTodoMsg(-1)`. -/
def UpdateTodoList : Msg := Msg.UpdateTodoMsg (-1)

/-- Go `Model.Update` of itemstab.go.  On `UpdateTodoMsg` the items are fetched
again with `ListTodos(1)` (its error is dropped), the table is rebuilt and the
old cursor is put back, or the last index when the old cursor is past the end.
Every other message goes to the table. -/
def Model.Update (W : Widgets) (m : Model) (w : World) (msg : Msg) : Except Failure (Model × Cmd) :=
  match msg with
  | .UpdateTodoMsg _ =>
    let cursor := m.itemsTable.Cursor
    match ListTodos w 1 with
    | .error e => .error e
    | .ok listed =>
      let items := listed.1
      let itemsTable := updateItemsTable items
      let itemsTable :=
        if cursor ≠ itemsTable.Cursor then
          if cursor ≥ (items.length : Int) then itemsTable.SetCursor ((items.length : Int) - 1)
          else itemsTable.SetCursor cursor
        else itemsTable
      .ok ({ items := items, itemsTable := itemsTable }, Cmd.nil)
  | _ => .ok ({ m with itemsTable := W.tableUpdate m.itemsTable msg }, Cmd.nil)

/-- Go `Model.SelectedItem`: `m.itemsTable.SelectedRow()[1]`.  Indexing a nil row,
or a row with fewer than two cells, panics.  (In the first releases of the table
widget `SelectedRow()` itself indexes `rows[cursor]` without a check and panics
in the same situations, so the caller sees the same outcome.)  The panic is
caught by the bubbletea event loop, which restores the terminal and ends the
program. -/
def Model.SelectedItem (m : Model) : Except Failure String :=
  match m.itemsTable.SelectedRow with
  | none => .error Failure.indexOutOfRange
  | some row =>
    match row[1]? with
    | none => .error Failure.indexOutOfRange
    | some description => .ok description

end itemstab

namespace main

open tea todo

/-- The struct `model` of main.go. -/
structure model where
  tabs : List String
  activeTab : Int
  account : String
  accountInput : textinput.Model
  itemsTab : itemstab.Model
  descriptionTextarea : textarea.Model
  deriving DecidableEq, Repr

/-- Go `initialModel`. -/
def initialModel : model :=
  { tabs := ["Account"]
    activeTab := 0
    account := ""
    accountInput := { value := "", CharLimit := 12, Width := 12, focus := true }
    itemsTab := itemstab.New
    descriptionTextarea :=
      { value := "", Placeholder := "What do you need to do?", Prompt := "┃ ", CharLimit := 100,
        width := 30, height := 1, ShowLineNumbers := false, focus := true } }

/-- Go `loadAccount`: `todo.Start` runs at once, the returned command yields
`loadAccountMsg(accountName)`. -/
def loadAccount (w : World) (accountName : String) : Except Failure (World × Cmd) :=
  match Start w accountName with
  | .error e => .error e
  | .ok w1 => .ok (w1, Cmd.send (Msg.loadAccountMsg accountName))

/-- Go `toggleTodo`: the error of `FindTodo` is dropped and the returned pointer
is dereferenced, which panics when it is nil; then the item is saved with its
flag flipped and the returned command yields `UpdateTodoMsg(-1)`. -/
def toggleTodo (w : World) (description : String) : Except Failure (World × Cmd) :=
  match FindTodo w description with
  | .error e => .error e
  | .ok found =>
    match found.1 with
    | none => .error Failure.nilPointer
    | some selectedTodo =>
      match UpdateTodo w { selectedTodo with Done := !selectedTodo.Done } with
      | .error e => .error e
      | .ok w1 => .ok (w1, Cmd.send (Msg.UpdateTodoMsg (-1)))

/-- Go `addTodo`: the item is created at once, the returned command yields
`resetAddFormMsg(-1)`. -/
def addTodo (w : World) (item : TodoItem) : Except Failure (World × Cmd) :=
  match AddTodo w item with
  | .error e => .error e
  | .ok added => .ok (added.1, Cmd.send (Msg.resetAddFormMsg (-1)))

/-- Go `deleteTodo`: the error of `FindTodo` is dropped and the returned pointer,
nil or not, is handed to `DeleteTodo`; the returned command yields
`UpdateTodoMsg(-1)`. -/
def deleteTodo (w : World) (description : String) : Except Failure (World × Cmd) :=
  match FindTodo w description with
  | .error e => .error e
  | .ok found =>
    match DeleteTodo w found.1 with
    | .error e => .error e
    | .ok w1 => .ok (w1, Cmd.send (Msg.UpdateTodoMsg (-1)))

/-- The tail of Go `model.Update` ("propagate msg down to children"): three
successive `if`s on `activeTab` forward the message to the widget of that tab. -/
def propagate (W : Widgets) (m : model) (w : World) (msg : Msg) : Except Failure (model × World × Cmd) :=
  let m1 := if m.activeTab = 0 then { m with accountInput := W.textinputUpdate m.accountInput msg } else m
  let r2 : Except Failure model :=
    if m1.activeTab = 1 then
      match m1.itemsTab.Update W w msg with
      | .error e => .error e
      | .ok r => .ok { m1 with itemsTab := r.1 }
    else .ok m1
  match r2 with
  | .error e => .error e
  | .ok m2 =>
    let m3 := if m2.activeTab = 2 then
      { m2 with descriptionTextarea := W.textareaUpdate m2.descriptionTextarea msg } else m2
    .ok (m3, w, Cmd.nil)

/-- Go `model.Update`.  The store is the global state of package `todo`, so it is
threaded through as `w`.  In the key switch `case tea.KeyDelete:` has an empty
body (a Go case does not fall through to the next one), so Delete leaves the
switch and is forwarded like an unhandled key. -/
def Update (W : Widgets) (m : model) (w : World) (msg : Msg) : Except Failure (model × World × Cmd) :=
  match msg with
  | .loadAccountMsg name =>
    .ok ({ m with account := name }, w, Cmd.send itemstab.UpdateTodoList)
  | .UpdateTodoMsg n =>
    match m.itemsTab.Update W w (.UpdateTodoMsg n) with
    | .error e => .error e
    | .ok r =>
      let m1 := { m with itemsTab := r.1 }
      if (m1.tabs.length : Int) < 3 then
        .ok ({ m1 with tabs := ["Account", "@TODO", "New @TODO"], activeTab := 1 }, w, r.2)
      else if m1.activeTab ≠ 1 then
        .ok ({ m1 with activeTab := 1 }, w, r.2)
      else
        .ok (m1, w, r.2)
  | .resetAddFormMsg _ =>
    .ok ({ m with descriptionTextarea := m.descriptionTextarea.Reset }, w, Cmd.send itemstab.UpdateTodoList)
  | .KeyMsg key =>
    match key with
    | .KeyCtrlC => .ok (m, w, Cmd.Quit)
    | .KeyEnter =>
      if m.activeTab = 0 then
        match loadAccount w m.accountInput.Value with
        | .error e => .error e
        | .ok r => .ok (m, r.1, r.2)
      else if m.activeTab = 1 then
        match m.itemsTab.SelectedItem with
        | .error e => .error e
        | .ok description =>
          match toggleTodo w description with
          | .error e => .error e
          | .ok r => .ok (m, r.1, r.2)
      else if m.activeTab = 2 then
        match addTodo w { ID := 0, Deleted := false, Description := m.descriptionTextarea.Value, Done := false } with
        | .error e => .error e
        | .ok r => .ok (m, r.1, r.2)
      else propagate W m w (.KeyMsg .KeyEnter)
    | .KeyDelete => propagate W m w (.KeyMsg .KeyDelete)
    | .KeyBackspace =>
      if m.activeTab = 1 then
        match m.itemsTab.SelectedItem with
        | .error e => .error e
        | .ok description =>
          match deleteTodo w description with
          | .error e => .error e
          | .ok r => .ok (m, r.1, r.2)
      else propagate W m w (.KeyMsg .KeyBackspace)
    | .KeyTab =>
      if m.tabs.length = 0 then .error Failure.divideByZero
      else .ok ({ m with activeTab := Int.tmod (wrapInt (m.activeTab + 1)) (m.tabs.length : Int) }, w, Cmd.nil)
    | k => propagate W m w (.KeyMsg k)
  | .other tag => propagate W m w (.other tag)

/-- Application states that a session can be in: the process starts in
`initialModel` with the global `db` nil, and every event (key press or message)
that `Update` handles without stopping the process leads to the next state.
Events are not required to follow the commands returned before (a state after
`tea.Quit` counts as well), which only makes the set larger. -/
inductive Reachable (W : Widgets) : model → World → Prop where
  | start (w : World) (h : w.db = none) : Reachable W initialModel w
  | step {m : model} {w : World} (msg : Msg) {m1 : model} {w1 : World} {c : Cmd}
      (h : Reachable W m w) (hstep : Update W m w msg = .ok (m1, w1, c)) : Reachable W m1 w1

/-- The event loop on one event: `Update` handles it, and the message of the
returned command is handed to `Update` next, until a command yields no further
message.  At most `fuel` messages are delivered; a message left over when the
fuel is used up is reported as `outOfFuel`. -/
def dispatch (W : Widgets) : Nat → model → World → Msg → Except Failure (model × World)
  | 0, _, _, _ => .error Failure.outOfFuel
  | fuel + 1, m, w, msg =>
    match Update W m w msg with
    | .error e => .error e
    | .ok (m1, w1, .send next) => dispatch W fuel m1 w1 next
    | .ok (m1, w1, _) => .ok (m1, w1)

/-- A session: the event loop run on a sequence of user events, one after the
other; a failure ends it. -/
def session (W : Widgets) (fuel : Nat) : model → World → List Msg → Except Failure (model × World)
  | m, w, [] => .ok (m, w)
  | m, w, msg :: rest =>
    match dispatch W fuel m w msg with
    | .error e => .error e
    | .ok (m1, w1) => session W fuel m1 w1 rest

/-- A world at process start: no open handle, no database file has content yet,
every file can be opened. -/
def emptyWorld : World :=
  { db := none, files := fun _ => [], openable := fun _ => true }

/-- The two facts about the tabs that hold in every state of a session: the tab
list is the initial one or the full one, and the active tab is one of its
indices. -/
def TabsOK (m : model) : Prop :=
  (m.tabs = ["Account"] ∨ m.tabs = ["Account", "@TODO", "New @TODO"]) ∧
    0 ≤ m.activeTab ∧ m.activeTab < (m.tabs.length : Int)

/-- The key message for typed text. -/
def typeText (s : String) : Msg := Msg.KeyMsg (KeyType.KeyRunes s.toList)

/-- The key message for a single key. -/
def press (k : KeyType) : Msg := Msg.KeyMsg k

end main

namespace sample

open tea todo

/-- An item as the callers build it: `TodoItem{Description: d}`. -/
def item (d : String) : TodoItem :=
  { ID := 0, Deleted := false, Description := d, Done := false }

/-- Go `AddTodo` called on each item of a list in turn. -/
def addAll (w : World) : List TodoItem → Except Failure World
  | [] => .ok w
  | it :: rest =>
    match AddTodo w it with
    | .error e => .error e
    | .ok r => addAll r.1 rest

/-- A store open on "alice" with three rows, the second one soft-deleted. -/
def store : World :=
  { db := some "alice"
    files := fun n =>
      if n = "alice" then
        [{ ID := 1, Deleted := false, Description := "Buy milk", Done := true },
         { ID := 2, Deleted := true, Description := "Call mum", Done := false },
         { ID := 3, Deleted := false, Description := "Walk dog", Done := false }]
      else []
    openable := fun _ => true }

/-- An items view that still shows three rows, with the cursor on the last one. -/
def view : itemstab.Model :=
  { items :=
      [{ ID := 1, Deleted := false, Description := "Buy milk", Done := true },
       { ID := 2, Deleted := false, Description := "Call mum", Done := false },
       { ID := 3, Deleted := false, Description := "Walk dog", Done := false }]
    itemsTable := { rows := [["yes", "Buy milk"], ["no", "Call mum"], ["no", "Walk dog"]], cursor := 2 } }

/-- The application after the account "alice" was loaded and Tab was pressed
once: three tabs, the add-item tab focused. -/
def loaded : main.model :=
  { main.initialModel with
    tabs := ["Account", "@TODO", "New @TODO"]
    activeTab := 2
    account := "alice"
    accountInput := { value := "alice", CharLimit := 12, Width := 12, focus := true } }

/-- The world that goes with `loaded`: the handle is open on "alice". -/
def loadedWorld : World :=
  { main.emptyWorld with db := some "alice" }

end sample

open todo gorm tea

theorem wrapInt_of_small (x : Int) (h1 : -9223372036854775808 ≤ x) (h2 : x < 9223372036854775808) :
    wrapInt x = x := by
  unfold wrapInt; omega

theorem todo.ListTodos_open (w : World) (name : String) (p : Int) (h : w.db = some name) :
    ListTodos w p = .ok ((w.files name).filter (fun r => !r.Deleted), none) := by
  simp [ListTodos, h, DB.Find, DB.fresh, DB.selected, DB.Limit, DB.Offset]

theorem todo.FindTodo_found (w : World) (name d : String) (item : TodoItem) (h : w.db = some name)
    (hf : ((w.files name).filter (fun r => !r.Deleted && decide (r.Description = d))).head? = some item) :
    FindTodo w d = .ok (some item, none) := by
  simp [FindTodo, h, DB.First, DB.fresh, DB.selected, DB.Where, hf]

theorem todo.FindTodo_missing (w : World) (name d : String) (h : w.db = some name)
    (hf : ((w.files name).filter (fun r => !r.Deleted && decide (r.Description = d))).head? = none) :
    FindTodo w d = .ok (none, some "No rows found") := by
  simp [FindTodo, h, DB.First, DB.fresh, DB.selected, DB.Where, hf]

theorem gorm.lt_nextID (t : Table) : ∀ r ∈ t, r.ID < nextID t := by
  induction t with
  | nil => intro r hr; cases hr
  | cons x xs ih =>
    intro r hr
    simp only [nextID, List.map_cons, List.foldr_cons] at ih ⊢
    rcases List.mem_cons.1 hr with h | h
    · subst h; omega
    · have := ih r h; omega

theorem todo.files_setTable (w : World) (name : String) (t : Table) :
    (w.setTable name t).files name = t := by
  simp [World.setTable]

theorem todo.db_setTable (w : World) (name : String) (t : Table) :
    (w.setTable name t).db = w.db := rfl

theorem todo.AddTodo_new (w : World) (name : String) (item : TodoItem) (hdb : w.db = some name)
    (hid : item.ID = 0) :
    AddTodo w item = .ok (w.setTable name (w.files name ++ [{ item with ID := nextID (w.files name) }]),
      { item with ID := nextID (w.files name) }) := by
  simp [AddTodo, hdb, Create, hid]

/-- Claim C6, as amended.  In an open store, after `AddTodo` of a new item (no key
assigned, not marked deleted) with `Done = false`, `FindTodo(item.Description)`
succeeds and returns the first live row carrying that description: its
description is the added one; its `Done` is false provided no live row with that
description and `Done = true` was stored before; it is the added item itself
when no live row carried the description before; and otherwise it is the live
row with that description that comes first in the table, which is also the row
`FindTodo` returned before the item was added. -/
theorem C6_add_then_find (w : World) (name : String) (item : TodoItem)
    (hdb : w.db = some name) (hid : item.ID = 0) (hdel : item.Deleted = false)
    (hdone : item.Done = false) :
    ∃ w1 item1 found,
      AddTodo w item = .ok (w1, item1) ∧
      FindTodo w1 item.Description = .ok (some found, none) ∧
      found.Description = item.Description ∧
      ((∀ r ∈ w.files name, r.Deleted = false → r.Description = item.Description → r.Done = false) →
        found.Done = false) ∧
      ((∀ r ∈ w.files name, r.Description = item.Description → r.Deleted = true) → found = item1) ∧
      (∀ pre r post, w.files name = pre ++ r :: post →
        r.Deleted = false → r.Description = item.Description →
        (∀ x ∈ pre, x.Deleted = true ∨ x.Description ≠ item.Description) → found = r) ∧
      (∀ r, FindTodo w item.Description = .ok (some r, none) → found = r) ∧
      item1 = { item with ID := nextID (w.files name) } ∧
      w1.files name = w.files name ++ [item1] := by
  have hfirst : ∀ pre r post, w.files name = pre ++ r :: post →
      r.Deleted = false → r.Description = item.Description →
      (∀ x ∈ pre, x.Deleted = true ∨ x.Description ≠ item.Description) →
      ((w.files name).filter (fun r => !r.Deleted && decide (r.Description = item.Description))).head? =
        some r := by
    intro pre r post ht hlive hdesc hpre
    have hpre2 : pre.filter (fun r => !r.Deleted && decide (r.Description = item.Description)) = [] := by
      rw [List.filter_eq_nil_iff]
      intro x hx
      rcases hpre x hx with h | h
      · simp [h]
      · simp [h]
    rw [ht, List.filter_append, hpre2]
    simp [List.filter_cons, hlive, hdesc]
  cases hfl : (w.files name).filter (fun r => !r.Deleted && decide (r.Description = item.Description)) with
  | nil =>
    have hmiss := FindTodo_missing w name item.Description hdb (by rw [hfl]; rfl)
    refine ⟨_, _, { item with ID := nextID (w.files name) }, AddTodo_new w name item hdb hid,
      ?_, rfl, ?_, ?_, ?_, ?_, rfl, files_setTable _ _ _⟩
    · apply FindTodo_found _ name _ _ (by simpa using hdb)
      simp [files_setTable, List.filter_append, hfl, hdel]
    · intro _; simpa using hdone
    · intro _; rfl
    · intro pre r post ht hlive hdesc hpre
      have := hfirst pre r post ht hlive hdesc hpre
      rw [hfl] at this; simp at this
    · intro r hr
      rw [hmiss] at hr; simp at hr
  | cons a l =>
    have ha : a ∈ (w.files name).filter (fun r => !r.Deleted && decide (r.Description = item.Description)) := by
      rw [hfl]; exact List.mem_cons_self _ _
    have ha2 := List.mem_filter.1 ha
    simp only [Bool.and_eq_true, Bool.not_eq_true', decide_eq_true_eq] at ha2
    have hfound := FindTodo_found w name item.Description a hdb (by rw [hfl]; rfl)
    refine ⟨_, _, a, AddTodo_new w name item hdb hid, ?_, ha2.2.2, ?_, ?_, ?_, ?_, rfl,
      files_setTable _ _ _⟩
    · apply FindTodo_found _ name _ _ (by simpa using hdb)
      simp [files_setTable, List.filter_append, hfl]
    · intro h; exact h a ha2.1 ha2.2.1 ha2.2.2
    · intro h
      have := h a ha2.1 ha2.2.2
      rw [ha2.2.1] at this; cases this
    · intro pre r post ht hlive hdesc hpre
      have := hfirst pre r post ht hlive hdesc hpre
      rw [hfl] at this
      simpa using this
    · intro r hr
      rw [hfound] at hr
      simpa using hr

theorem gorm.Delete_appended (t : Table) (item : TodoItem) :
    (Delete (t ++ [{ item with ID := nextID t }]) (some { item with ID := nextID t })).1 =
      t ++ [{ item with ID := nextID t, Deleted := true }] := by
  have hne : nextID t ≠ 0 := by simp [nextID]
  simp only [Delete, hne, if_false, List.map_append, List.map_cons, List.map_nil]
  congr 1
  · conv_rhs => rw [← List.map_id t]
    apply List.map_congr_left
    intro r hr
    have := lt_nextID t r hr
    have hne2 : r.ID ≠ nextID t := by omega
    simp [hne2]
  · cases h : item.Deleted <;> simp [h]

theorem todo.FindTodo_congr (w w1 : World) (name d : String) (h : w.db = some name)
    (h1 : w1.db = some name)
    (hs : (w1.files name).filter (fun r => !r.Deleted && decide (r.Description = d)) =
      (w.files name).filter (fun r => !r.Deleted && decide (r.Description = d))) :
    FindTodo w1 d = FindTodo w d := by
  simp [FindTodo, h, h1, DB.First, DB.fresh, DB.selected, DB.Where, hs]

/-- Claim C7, as amended.  In an open store, after `AddTodo` of a new item and
`DeleteTodo` of that item, `FindTodo(item.Description)` answers exactly what it
answered before the item was added; in particular it reports "No rows found"
when no other live row carries the description. -/
theorem C7_add_delete_then_find (w : World) (name : String) (item : TodoItem)
    (hdb : w.db = some name) (hid : item.ID = 0) :
    ∃ w1 item1 w2,
      AddTodo w item = .ok (w1, item1) ∧
      DeleteTodo w1 (some item1) = .ok w2 ∧
      FindTodo w2 item.Description = FindTodo w item.Description ∧
      ((∀ r ∈ w.files name, r.Description = item.Description → r.Deleted = true) →
        FindTodo w2 item.Description = .ok (none, some "No rows found")) := by
  have hdel : DeleteTodo (w.setTable name (w.files name ++ [{ item with ID := nextID (w.files name) }]))
      (some { item with ID := nextID (w.files name) }) =
      .ok ((w.setTable name (w.files name ++ [{ item with ID := nextID (w.files name) }])).setTable name
        (w.files name ++ [{ item with ID := nextID (w.files name), Deleted := true }])) := by
    simp only [DeleteTodo, db_setTable, hdb, files_setTable, Delete_appended]
  have hfind : FindTodo ((w.setTable name (w.files name ++ [{ item with ID := nextID (w.files name) }])).setTable name
        (w.files name ++ [{ item with ID := nextID (w.files name), Deleted := true }])) item.Description =
      FindTodo w item.Description := by
    apply FindTodo_congr _ _ name _ hdb (by simpa [db_setTable] using hdb)
    simp [files_setTable, List.filter_append]
  refine ⟨_, _, _, AddTodo_new w name item hdb hid, hdel, hfind, ?_⟩
  intro h
  rw [hfind]
  apply FindTodo_missing w name _ hdb
  rw [List.head?_eq_none_iff, List.filter_eq_nil_iff]
  intro r hr
  by_cases hd : r.Description = item.Description
  · simp [h r hr hd]
  · simp [hd]

theorem gorm.head?_filter_split (p : TodoItem → Bool) (t : Table) (item : TodoItem)
    (h : (t.filter p).head? = some item) :
    ∃ pre post, t = pre ++ item :: post ∧ (∀ r ∈ pre, p r = false) ∧ p item = true := by
  induction t with
  | nil => simp at h
  | cons x xs ih =>
    by_cases hx : p x = true
    · rw [List.filter_cons, if_pos hx, List.head?_cons, Option.some.injEq] at h
      subst h
      exact ⟨[], xs, rfl, by simp, hx⟩
    · rw [List.filter_cons, if_neg hx] at h
      obtain ⟨pre, post, ht, hpre, hitem⟩ := ih h
      refine ⟨x :: pre, post, by simp [ht], ?_, hitem⟩
      intro r hr
      rcases List.mem_cons.1 hr with h1 | h1
      · subst h1; simpa using hx
      · exact hpre r h1

theorem gorm.WF_key_inj (t : Table) (h : WF t) :
    ∀ r ∈ t, ∀ s ∈ t, r.ID = s.ID → r = s := by
  have hp : t.Pairwise (fun a b => a.ID < b.ID) := List.pairwise_map.1 h.1
  clear h
  induction t with
  | nil => intro r hr; cases hr
  | cons x xs ih =>
    rw [List.pairwise_cons] at hp
    intro r hr s hs hrs
    rcases List.mem_cons.1 hr with h1 | h1 <;> rcases List.mem_cons.1 hs with h2 | h2
    · rw [h1, h2]
    · subst h1; have := hp.1 s h2; omega
    · subst h2; have := hp.1 r h1; omega
    · exact ih hp.2 r h1 s h2 hrs

theorem gorm.Save_live (t : Table) (h : WF t) (item new : TodoItem) (hmem : item ∈ t)
    (hlive : item.Deleted = false) (hkey : new.ID = item.ID) :
    (Save t new).1 = t.map (fun r => if r = item then new else r) := by
  have h0 : new.ID ≠ 0 := by rw [hkey]; exact h.2 item hmem
  have hany : t.any (fun r => r.ID == new.ID && !r.Deleted) = true := by
    rw [List.any_eq_true]
    exact ⟨item, hmem, by simp [hkey, hlive]⟩
  simp only [Save, h0, if_false, hany, if_true]
  apply List.map_congr_left
  intro r hr
  by_cases hri : r = item
  · subst hri; simp [hkey, hlive]
  · have : r.ID ≠ new.ID := by
      intro hc; exact hri (WF_key_inj t h r hr item hmem (hc.trans hkey))
    simp [hri, this]

theorem gorm.WF_map_swap (t : Table) (h : WF t) (item new : TodoItem) (hkey : new.ID = item.ID) :
    WF (t.map (fun r => if r = item then new else r)) := by
  have hids : (t.map (fun r => if r = item then new else r)).map (fun r => r.ID) = t.map (fun r => r.ID) := by
    rw [List.map_map]
    apply List.map_congr_left
    intro r _
    by_cases hri : r = item
    · simp [hri, hkey]
    · simp [hri]
  refine ⟨by rw [hids]; exact h.1, ?_⟩
  intro r hr
  have : r.ID ∈ (t.map (fun r => if r = item then new else r)).map (fun r => r.ID) :=
    List.mem_map_of_mem _ hr
  rw [hids] at this
  obtain ⟨s, hs, hsr⟩ := List.mem_map.1 this
  rw [← hsr]; exact h.2 s hs

theorem gorm.head?_filter_swap (p : TodoItem → Bool) (t : Table) (item new : TodoItem)
    (h : (t.filter p).head? = some item) (hnew : p new = true) :
    ((t.map (fun r => if r = item then new else r)).filter p).head? = some new := by
  obtain ⟨pre, post, ht, hpre, hitem⟩ := head?_filter_split p t item h
  have hpre2 : pre.map (fun r => if r = item then new else r) = pre := by
    conv_rhs => rw [← List.map_id pre]
    apply List.map_congr_left
    intro r hr
    have : r ≠ item := by
      intro hc; rw [hc] at hr; have := hpre item hr; rw [hitem] at this; cases this
    simp [this]
  have hpre3 : pre.filter p = [] := by
    rw [List.filter_eq_nil_iff]; intro r hr; simp [hpre r hr]
  rw [ht, List.map_append, hpre2, List.filter_append, hpre3]
  simp [List.filter_cons, hnew]

theorem todo.FindTodo_some_inv (w : World) (name d : String) (item : TodoItem) (hdb : w.db = some name)
    (hf : FindTodo w d = .ok (some item, none)) :
    ((w.files name).filter (fun r => !r.Deleted && decide (r.Description = d))).head? = some item := by
  cases hh : ((w.files name).filter (fun r => !r.Deleted && decide (r.Description = d))).head? with
  | none => rw [FindTodo_missing w name d hdb hh] at hf; simp at hf
  | some r => rw [FindTodo_found w name d r hdb hh] at hf; simpa using hf

theorem main.toggleTodo_found (w : World) (name d : String) (item : TodoItem) (hdb : w.db = some name)
    (hwf : WF (w.files name)) (hf : FindTodo w d = .ok (some item, none)) :
    main.toggleTodo w d =
        .ok (w.setTable name ((w.files name).map (fun r => if r = item then { item with Done := !item.Done } else r)),
          Cmd.send (Msg.UpdateTodoMsg (-1))) ∧
      FindTodo (w.setTable name ((w.files name).map (fun r => if r = item then { item with Done := !item.Done } else r))) d =
        .ok (some { item with Done := !item.Done }, none) := by
  have hh := FindTodo_some_inv w name d item hdb hf
  have hmem : item ∈ (w.files name).filter (fun r => !r.Deleted && decide (r.Description = d)) :=
    List.mem_of_mem_head? hh
  have hp := List.mem_filter.1 hmem
  simp only [Bool.and_eq_true, Bool.not_eq_true', decide_eq_true_eq] at hp
  constructor
  · simp only [main.toggleTodo, hf, UpdateTodo, hdb]
    rw [Save_live (w.files name) hwf item { item with Done := !item.Done } hp.1 hp.2.1 rfl]
  · apply FindTodo_found _ name _ _ (by simpa [db_setTable] using hdb)
    rw [files_setTable]
    apply head?_filter_swap _ _ _ _ hh
    simp [hp.2.1, hp.2.2]

/-- Claim C9.  In an open store with sound keys, for a description `d` that
`FindTodo` finds: `toggleTodo(d)` succeeds and flips the `Done` flag of the found
row and changes nothing else (every other row, and every other database file,
is as before); running it a second time succeeds too and puts the found row,
and with it the whole store content, back to the original. -/
theorem C9_toggle_twice (w : World) (name d : String) (item : TodoItem) (hdb : w.db = some name)
    (hwf : WF (w.files name)) (hf : FindTodo w d = .ok (some item, none)) :
    ∃ w1 w2,
      main.toggleTodo w d = .ok (w1, Cmd.send (Msg.UpdateTodoMsg (-1))) ∧
      main.toggleTodo w1 d = .ok (w2, Cmd.send (Msg.UpdateTodoMsg (-1))) ∧
      FindTodo w1 d = .ok (some { item with Done := !item.Done }, none) ∧
      FindTodo w2 d = .ok (some item, none) ∧
      w1.files name = (w.files name).map (fun r => if r = item then { r with Done := !r.Done } else r) ∧
      (∀ n, n ≠ name → w1.files n = w.files n) ∧
      (∀ n, w2.files n = w.files n) ∧
      w1.db = w.db ∧ w2.db = w.db := by
  have hh := FindTodo_some_inv w name d item hdb hf
  have hmem : item ∈ w.files name := (List.mem_filter.1 (List.mem_of_mem_head? hh)).1
  obtain ⟨ht1, hf1⟩ := main.toggleTodo_found w name d item hdb hwf hf
  have hdb1 : (w.setTable name ((w.files name).map
      (fun r => if r = item then { item with Done := !item.Done } else r))).db = some name := by
    simpa [db_setTable] using hdb
  have hwf1 : WF ((w.setTable name ((w.files name).map
      (fun r => if r = item then { item with Done := !item.Done } else r))).files name) := by
    rw [files_setTable]; exact WF_map_swap _ hwf _ _ rfl
  obtain ⟨ht2, hf2⟩ := main.toggleTodo_found _ name d _ hdb1 hwf1 hf1
  have hback : ((w.files name).map (fun r => if r = item then { item with Done := !item.Done } else r)).map
      (fun r => if r = { item with Done := !item.Done } then
        { ({ item with Done := !item.Done } : TodoItem) with Done := !(!item.Done) } else r) = w.files name := by
    rw [List.map_map]
    conv_rhs => rw [← List.map_id (w.files name)]
    apply List.map_congr_left
    intro r hr
    by_cases hri : r = item
    · subst hri; simp
    · have hne : r ≠ { item with Done := !item.Done } := by
        intro hc
        apply hri
        apply WF_key_inj _ hwf r hr item hmem
        rw [hc]
      simp [hri, hne]
  rw [files_setTable] at ht2 hf2
  rw [hback] at ht2 hf2
  have hitem : ({ ({ item with Done := !item.Done } : TodoItem) with Done := !(!item.Done) } : TodoItem) = item := by
    cases item; simp
  rw [hitem] at hf2
  refine ⟨_, _, ht1, ht2, hf1, hf2, ?_, ?_, ?_, rfl, rfl⟩
  · rw [files_setTable]
    apply List.map_congr_left
    intro r _
    by_cases hri : r = item
    · simp [hri]
    · simp [hri]
  · intro n hn; simp [World.setTable, hn]
  · intro n
    by_cases hn : n = name
    · simp [World.setTable, hn]
    · simp [World.setTable, hn]

theorem table.clamp_mem (v n : Int) (hn : 1 ≤ n) :
    0 ≤ table.clamp v 0 (n - 1) ∧ table.clamp v 0 (n - 1) ≤ n - 1 := by
  unfold table.clamp; omega

theorem table.clamp_id (v n : Int) (h0 : 0 ≤ v) (hn : v < n) : table.clamp v 0 (n - 1) = v := by
  unfold table.clamp; omega

theorem table.SelectedRow_of_rows_nil (t : table.Model) (h : t.rows = []) : t.SelectedRow = none := by
  unfold table.Model.SelectedRow
  split
  · rfl
  · simp [h]

/-- The items view after a refresh, computed from the old cursor and the listed items. -/
theorem itemstab.Update_refresh (W : Widgets) (m : itemstab.Model) (w : World) (name : String) (n : Int)
    (hdb : w.db = some name) :
    m.Update W w (Msg.UpdateTodoMsg n) =
      .ok ({ items := (w.files name).filter (fun r => !r.Deleted)
             itemsTable :=
               if m.itemsTable.Cursor ≠ (itemstab.updateItemsTable ((w.files name).filter (fun r => !r.Deleted))).Cursor then
                 if m.itemsTable.Cursor ≥ (((w.files name).filter (fun r => !r.Deleted)).length : Int) then
                   (itemstab.updateItemsTable ((w.files name).filter (fun r => !r.Deleted))).SetCursor
                     ((((w.files name).filter (fun r => !r.Deleted)).length : Int) - 1)
                 else (itemstab.updateItemsTable ((w.files name).filter (fun r => !r.Deleted))).SetCursor
                   m.itemsTable.Cursor
               else itemstab.updateItemsTable ((w.files name).filter (fun r => !r.Deleted)) }, Cmd.nil) := by
  simp only [itemstab.Model.Update, ListTodos_open w name 1 hdb]

/-- Claim C2.  For an items view whose cursor is k, a refresh (`UpdateTodoMsg`) on
an open store succeeds and delivers the listed items, of length m: if k is an
index (0 ≤ k) and m > k the cursor is still k; if 1 ≤ m ≤ k the cursor is m - 1;
if m = 0 no row is selected; and whenever the delivered item list is non-empty
the cursor lies in [0, m - 1], whatever k was. -/
theorem C2_refresh_cursor (W : Widgets) (m : itemstab.Model) (w : World) (name : String) (n : Int)
    (hdb : w.db = some name) :
    ∃ m1 : itemstab.Model,
      m.Update W w (Msg.UpdateTodoMsg n) = .ok (m1, Cmd.nil) ∧
      ListTodos w 1 = .ok (m1.items, none) ∧
      m1.itemsTable.rows.length = m1.items.length ∧
      (0 ≤ m.itemsTable.Cursor → m.itemsTable.Cursor < (m1.items.length : Int) →
        m1.itemsTable.Cursor = m.itemsTable.Cursor) ∧
      (1 ≤ m1.items.length → (m1.items.length : Int) ≤ m.itemsTable.Cursor →
        m1.itemsTable.Cursor = (m1.items.length : Int) - 1) ∧
      (m1.items.length = 0 → m1.itemsTable.SelectedRow = none) ∧
      (m1.items ≠ [] →
        0 ≤ m1.itemsTable.Cursor ∧ m1.itemsTable.Cursor ≤ (m1.items.length : Int) - 1) := by
  refine ⟨_, itemstab.Update_refresh W m w name n hdb, ?_⟩
  generalize hitems : (w.files name).filter (fun r => !r.Deleted) = items
  have hrows : ∀ c : Int, ((itemstab.updateItemsTable items).SetCursor c).rows.length = items.length := by
    intro c; simp [itemstab.updateItemsTable, table.New, table.Model.SetCursor]
  have hrows0 : (itemstab.updateItemsTable items).rows.length = items.length := by
    simp [itemstab.updateItemsTable, table.New]
  refine ⟨ListTodos_open w name 1 hdb |>.trans (by rw [hitems]), ?_, ?_, ?_, ?_, ?_⟩
  · dsimp only
    split_ifs
    · exact hrows _
    · exact hrows _
    · exact hrows0
  · intro hk hlt
    dsimp only at hlt ⊢
    split_ifs with h1 h2
    · omega
    · simp only [table.Model.Cursor, table.Model.SetCursor, hrows0] at hk ⊢
      exact table.clamp_id _ _ hk hlt
    · simp only [ne_eq, not_not] at h1; exact h1.symm
  · intro h1 h2
    dsimp only at h1 h2 ⊢
    split_ifs with h3
    · simp only [table.Model.Cursor, table.Model.SetCursor, hrows0, table.clamp]; omega
    · simp only [ne_eq, not_not] at h3
      simp only [itemstab.updateItemsTable, table.New, table.Model.Cursor] at h2 h3 ⊢
      omega
  · intro h0
    apply table.SelectedRow_of_rows_nil
    apply List.length_eq_zero.1
    dsimp only at h0 ⊢
    split_ifs
    · rw [hrows]; exact h0
    · rw [hrows]; exact h0
    · rw [hrows0]; exact h0
  · intro hne
    dsimp only at hne ⊢
    have hpos : 1 ≤ (items.length : Int) := by
      have := List.length_pos.2 hne; omega
    split_ifs with h3 h4
    · simp only [table.Model.Cursor, table.Model.SetCursor, hrows0]; exact table.clamp_mem _ _ hpos
    · simp only [table.Model.Cursor, table.Model.SetCursor, hrows0]; exact table.clamp_mem _ _ hpos
    · simp only [itemstab.updateItemsTable, table.New, table.Model.Cursor]; omega

/-- Forwarding a message to the focused widget touches neither the tab list, the
active tab, the account nor the store, and schedules nothing. -/
theorem main.propagate_frame (W : Widgets) (m : main.model) (w : World) (msg : Msg)
    (m1 : main.model) (w1 : World) (c : Cmd) (h : main.propagate W m w msg = .ok (m1, w1, c)) :
    m1.tabs = m.tabs ∧ m1.activeTab = m.activeTab ∧ m1.account = m.account ∧ w1 = w ∧
      c = Cmd.nil := by
  unfold main.propagate at h
  by_cases h0 : m.activeTab = 0
  · simp [h0] at h
    obtain ⟨rfl, rfl, rfl⟩ := h
    simp [h0]
  · by_cases h1 : m.activeTab = 1
    · cases hu : m.itemsTab.Update W w msg with
      | error e => simp [hu, h1] at h
      | ok r =>
        simp [hu, h1] at h
        obtain ⟨rfl, rfl, rfl⟩ := h
        simp [h1]
    · by_cases h2 : m.activeTab = 2
      · simp [h0, h1, h2] at h
        obtain ⟨rfl, rfl, rfl⟩ := h
        simp [h2]
      · simp [h0, h1, h2] at h
        obtain ⟨rfl, rfl, rfl⟩ := h
        simp

theorem todo.AddTodo_db (w : World) (item : TodoItem) (r : World × TodoItem)
    (h : AddTodo w item = .ok r) : r.1.db = w.db := by
  unfold AddTodo at h
  split at h
  · cases h
  · cases h; rfl

theorem todo.DeleteTodo_db (w : World) (item : Option TodoItem) (w1 : World)
    (h : DeleteTodo w item = .ok w1) : w1.db = w.db := by
  unfold DeleteTodo at h
  split at h
  · cases h
  · cases h; rfl

theorem todo.UpdateTodo_db (w : World) (item : TodoItem) (w1 : World)
    (h : UpdateTodo w item = .ok w1) : w1.db = w.db := by
  unfold UpdateTodo at h
  split at h
  · cases h
  · cases h; rfl

theorem main.toggleTodo_db (w : World) (d : String) (r : World × Cmd)
    (h : main.toggleTodo w d = .ok r) : r.1.db = w.db := by
  unfold main.toggleTodo at h
  split at h
  · cases h
  · split at h
    · cases h
    · split at h
      · cases h
      · next w1 hu => cases h; exact UpdateTodo_db _ _ _ hu

theorem main.addTodo_db (w : World) (item : TodoItem) (r : World × Cmd)
    (h : main.addTodo w item = .ok r) : r.1.db = w.db := by
  unfold main.addTodo at h
  split at h
  · cases h
  · next added ha => cases h; exact AddTodo_db _ _ _ ha

theorem main.deleteTodo_db (w : World) (d : String) (r : World × Cmd)
    (h : main.deleteTodo w d = .ok r) : r.1.db = w.db := by
  unfold main.deleteTodo at h
  split at h
  · cases h
  · split at h
    · cases h
    · next w1 hu => cases h; exact DeleteTodo_db _ _ _ hu

theorem main.tmod_succ (a n : Int) (h0 : 0 ≤ a) (h1 : a < n) :
    Int.tmod (a + 1) n = (a + 1) % n :=
  Int.tmod_eq_emod (by omega) (by omega)

theorem main.Update_TabsOK (W : Widgets) (m : main.model) (w : World) (msg : Msg)
    (m1 : main.model) (w1 : World) (c : Cmd) (h : main.Update W m w msg = .ok (m1, w1, c))
    (hm : main.TabsOK m) : main.TabsOK m1 := by
  have hprop : ∀ msg, main.propagate W m w msg = .ok (m1, w1, c) → main.TabsOK m1 := by
    intro msg hp
    obtain ⟨h1, h2, _⟩ := main.propagate_frame W m w msg m1 w1 c hp
    unfold main.TabsOK; rw [h1, h2]; exact hm
  cases msg with
  | loadAccountMsg name =>
    simp only [main.Update, Except.ok.injEq, Prod.mk.injEq] at h
    obtain ⟨rfl, _, _⟩ := h; exact hm
  | UpdateTodoMsg n =>
    simp only [main.Update] at h
    split at h
    · cases h
    · split_ifs at h with h3 h4
      · simp only [Except.ok.injEq, Prod.mk.injEq] at h
        obtain ⟨rfl, _, _⟩ := h
        exact ⟨Or.inr rfl, by simp, by simp⟩
      · simp only [Except.ok.injEq, Prod.mk.injEq] at h
        obtain ⟨rfl, _, _⟩ := h
        refine ⟨hm.1, by simp, ?_⟩
        simp only at h3 ⊢; omega
      · simp only [Except.ok.injEq, Prod.mk.injEq] at h
        obtain ⟨rfl, _, _⟩ := h
        exact hm
  | resetAddFormMsg n =>
    simp only [main.Update, Except.ok.injEq, Prod.mk.injEq] at h
    obtain ⟨rfl, _, _⟩ := h; exact hm
  | KeyMsg key =>
    cases key with
    | KeyCtrlC =>
      simp only [main.Update, Except.ok.injEq, Prod.mk.injEq] at h
      obtain ⟨rfl, _, _⟩ := h; exact hm
    | KeyEnter =>
      simp only [main.Update] at h
      split_ifs at h
      · split at h
        · cases h
        · simp only [Except.ok.injEq, Prod.mk.injEq] at h
          obtain ⟨rfl, _, _⟩ := h; exact hm
      · split at h
        · cases h
        · split at h
          · cases h
          · simp only [Except.ok.injEq, Prod.mk.injEq] at h
            obtain ⟨rfl, _, _⟩ := h; exact hm
      · split at h
        · cases h
        · simp only [Except.ok.injEq, Prod.mk.injEq] at h
          obtain ⟨rfl, _, _⟩ := h; exact hm
      · exact hprop _ h
    | KeyDelete => exact hprop _ (by simpa only [main.Update] using h)
    | KeyBackspace =>
      simp only [main.Update] at h
      split_ifs at h
      · split at h
        · cases h
        · split at h
          · cases h
          · simp only [Except.ok.injEq, Prod.mk.injEq] at h
            obtain ⟨rfl, _, _⟩ := h; exact hm
      · exact hprop _ h
    | KeyTab =>
      simp only [main.Update] at h
      split_ifs at h with h0
      simp only [Except.ok.injEq, Prod.mk.injEq] at h
      obtain ⟨rfl, _, _⟩ := h
      obtain ⟨ht, ha0, ha1⟩ := hm
      have hw : wrapInt (m.activeTab + 1) = m.activeTab + 1 := by
        apply wrapInt_of_small
        · omega
        · rcases ht with ht | ht <;> rw [ht] at ha1 <;> simp at ha1 <;> omega
      have hmod := main.tmod_succ m.activeTab (m.tabs.length : Int) ha0 ha1
      refine ⟨ht, ?_, ?_⟩
      · simp only [hw, hmod]; exact Int.emod_nonneg _ (by omega)
      · simp only [hw, hmod]; exact Int.emod_lt_of_pos _ (by omega)
    | KeyUp => exact hprop _ (by simpa only [main.Update] using h)
    | KeyDown => exact hprop _ (by simpa only [main.Update] using h)
    | KeyRunes rs => exact hprop _ (by simpa only [main.Update] using h)
    | KeyOther code => exact hprop _ (by simpa only [main.Update] using h)
  | other tag => exact hprop _ (by simpa only [main.Update] using h)

theorem main.Update_frame (W : Widgets) (m : main.model) (w : World) (msg : Msg)
    (m1 : main.model) (w1 : World) (c : Cmd) (h : main.Update W m w msg = .ok (m1, w1, c)) :
    ((∀ name, msg ≠ Msg.loadAccountMsg name) → m1.account = m.account) ∧
      (¬(msg = Msg.KeyMsg KeyType.KeyEnter ∧ m.activeTab = 0) → w1.db = w.db) := by
  have hprop : ∀ msg1, main.propagate W m w msg1 = .ok (m1, w1, c) →
      m1.account = m.account ∧ w1.db = w.db := by
    intro msg1 hp
    obtain ⟨_, _, h3, h4, _⟩ := main.propagate_frame W m w msg1 m1 w1 c hp
    exact ⟨h3, by rw [h4]⟩
  cases msg with
  | loadAccountMsg name =>
    simp only [main.Update, Except.ok.injEq, Prod.mk.injEq] at h
    obtain ⟨_, rfl, _⟩ := h
    exact ⟨fun hn => absurd rfl (hn name), fun _ => rfl⟩
  | UpdateTodoMsg n =>
    simp only [main.Update] at h
    split at h
    · cases h
    · split_ifs at h <;>
      · simp only [Except.ok.injEq, Prod.mk.injEq] at h
        obtain ⟨rfl, rfl, _⟩ := h
        exact ⟨fun _ => rfl, fun _ => rfl⟩
  | resetAddFormMsg n =>
    simp only [main.Update, Except.ok.injEq, Prod.mk.injEq] at h
    obtain ⟨rfl, rfl, _⟩ := h
    exact ⟨fun _ => rfl, fun _ => rfl⟩
  | KeyMsg key =>
    cases key with
    | KeyCtrlC =>
      simp only [main.Update, Except.ok.injEq, Prod.mk.injEq] at h
      obtain ⟨rfl, rfl, _⟩ := h
      exact ⟨fun _ => rfl, fun _ => rfl⟩
    | KeyEnter =>
      simp only [main.Update] at h
      split_ifs at h with h0 h1 h2
      · split at h
        · cases h
        · simp only [Except.ok.injEq, Prod.mk.injEq] at h
          obtain ⟨rfl, _, _⟩ := h
          exact ⟨fun _ => rfl, fun hn => absurd ⟨rfl, h0⟩ hn⟩
      · split at h
        · cases h
        · split at h
          · cases h
          · next r hr =>
            simp only [Except.ok.injEq, Prod.mk.injEq] at h
            obtain ⟨rfl, rfl, _⟩ := h
            exact ⟨fun _ => rfl, fun _ => main.toggleTodo_db _ _ _ hr⟩
      · split at h
        · cases h
        · next r hr =>
          simp only [Except.ok.injEq, Prod.mk.injEq] at h
          obtain ⟨rfl, rfl, _⟩ := h
          exact ⟨fun _ => rfl, fun _ => main.addTodo_db _ _ _ hr⟩
      · exact ⟨fun _ => (hprop _ h).1, fun _ => (hprop _ h).2⟩
    | KeyDelete =>
      have := hprop _ (by simpa only [main.Update] using h)
      exact ⟨fun _ => this.1, fun _ => this.2⟩
    | KeyBackspace =>
      simp only [main.Update] at h
      split_ifs at h
      · split at h
        · cases h
        · split at h
          · cases h
          · next r hr =>
            simp only [Except.ok.injEq, Prod.mk.injEq] at h
            obtain ⟨rfl, rfl, _⟩ := h
            exact ⟨fun _ => rfl, fun _ => main.deleteTodo_db _ _ _ hr⟩
      · exact ⟨fun _ => (hprop _ h).1, fun _ => (hprop _ h).2⟩
    | KeyTab =>
      simp only [main.Update] at h
      split_ifs at h with h0
      simp only [Except.ok.injEq, Prod.mk.injEq] at h
      obtain ⟨rfl, rfl, _⟩ := h
      exact ⟨fun _ => rfl, fun _ => rfl⟩
    | KeyUp =>
      have := hprop _ (by simpa only [main.Update] using h)
      exact ⟨fun _ => this.1, fun _ => this.2⟩
    | KeyDown =>
      have := hprop _ (by simpa only [main.Update] using h)
      exact ⟨fun _ => this.1, fun _ => this.2⟩
    | KeyRunes rs =>
      have := hprop _ (by simpa only [main.Update] using h)
      exact ⟨fun _ => this.1, fun _ => this.2⟩
    | KeyOther code =>
      have := hprop _ (by simpa only [main.Update] using h)
      exact ⟨fun _ => this.1, fun _ => this.2⟩
  | other tag =>
    have := hprop _ (by simpa only [main.Update] using h)
    exact ⟨fun _ => this.1, fun _ => this.2⟩

theorem main.Reachable_TabsOK (W : Widgets) (m : main.model) (w : World)
    (h : main.Reachable W m w) : main.TabsOK m := by
  induction h with
  | start w hw => exact ⟨Or.inl rfl, by decide, by decide⟩
  | step msg _ hstep ih => exact main.Update_TabsOK W _ _ msg _ _ _ hstep ih

/-- Claim C5.  In every state reachable from `initialModel` by any sequence of
events, 0 ≤ activeTab < len(tabs); and there the Tab key succeeds and sets
activeTab to (activeTab + 1) mod len(tabs), leaving everything else as it is. -/
theorem C5_activeTab_valid (W : Widgets) (m : main.model) (w : World) (h : main.Reachable W m w) :
    (0 ≤ m.activeTab ∧ m.activeTab < (m.tabs.length : Int)) ∧
      main.Update W m w (Msg.KeyMsg KeyType.KeyTab) =
        .ok ({ m with activeTab := (m.activeTab + 1) % (m.tabs.length : Int) }, w, Cmd.nil) := by
  obtain ⟨ht, ha0, ha1⟩ := main.Reachable_TabsOK W m w h
  refine ⟨⟨ha0, ha1⟩, ?_⟩
  have hlen : m.tabs.length ≠ 0 := by
    intro hc; rw [hc] at ha1; simp at ha1; omega
  have hw : wrapInt (m.activeTab + 1) = m.activeTab + 1 := by
    apply wrapInt_of_small
    · omega
    · rcases ht with ht | ht <;> rw [ht] at ha1 <;> simp at ha1 <;> omega
  simp only [main.Update, hlen, if_false, hw, main.tmod_succ m.activeTab _ ha0 ha1]

theorem main.Update_UpdateTodoMsg (W : Widgets) (m : main.model) (w : World) (n : Int)
    (it : itemstab.Model) (hit : m.itemsTab.Update W w (Msg.UpdateTodoMsg n) = .ok (it, Cmd.nil))
    (h3 : 3 ≤ m.tabs.length) :
    main.Update W m w (Msg.UpdateTodoMsg n) = .ok ({ m with itemsTab := it, activeTab := 1 }, w, Cmd.nil) := by
  have hl : ¬ ((m.tabs.length : Int) < 3) := by omega
  by_cases h1 : m.activeTab = 1
  · simp only [main.Update, hit, hl, if_false, h1, ne_eq, not_true_eq_false]
  · simp only [main.Update, hit, hl, if_false, h1, ne_eq, not_false_eq_true, if_true]

/-- Claim C3, as amended.  In a state that shows (at least) three tabs, with the
store open, handling `UpdateTodoMsg` succeeds, leaves the tab list, the
account, both input widgets and the store unchanged, schedules nothing, refreshes
the items from `ListTodos(1)`, and sets the active tab to 1 whichever tab was
active before. -/
theorem C3_refresh_keeps_tabs (W : Widgets) (m : main.model) (w : World) (name : String) (n : Int)
    (hdb : w.db = some name) (h3 : 3 ≤ m.tabs.length) :
    ∃ m1 : main.model,
      main.Update W m w (Msg.UpdateTodoMsg n) = .ok (m1, w, Cmd.nil) ∧
      m1.tabs = m.tabs ∧ m1.activeTab = 1 ∧
      m1.account = m.account ∧ m1.accountInput = m.accountInput ∧
      m1.descriptionTextarea = m.descriptionTextarea ∧
      ListTodos w 1 = .ok (m1.itemsTab.items, none) :=
  ⟨_, main.Update_UpdateTodoMsg W m w n _ (itemstab.Update_refresh W m.itemsTab w name n hdb) h3,
    rfl, rfl, rfl, rfl, rfl, ListTodos_open w name 1 hdb⟩

/-- Claim C10, as amended.  The account field is set by every `loadAccountMsg`,
to the name it carries; Enter on tab 0 (re-)opens the store for the name in the
account input, whether or not an account is already set, and schedules the
matching `loadAccountMsg`; every other event leaves the account field, and
every event other than Enter on tab 0 leaves the open store handle, unchanged. -/
theorem C10_account_changes (W : Widgets) (m : main.model) (w : World) :
    (∀ name, main.Update W m w (Msg.loadAccountMsg name) =
        .ok ({ m with account := name }, w, Cmd.send itemstab.UpdateTodoList)) ∧
    (m.activeTab = 0 → w.openable m.accountInput.Value = true →
      main.Update W m w (Msg.KeyMsg KeyType.KeyEnter) =
        .ok (m, { w with db := some m.accountInput.Value },
          Cmd.send (Msg.loadAccountMsg m.accountInput.Value))) ∧
    (∀ msg m1 w1 c, main.Update W m w msg = .ok (m1, w1, c) →
      ((∀ name, msg ≠ Msg.loadAccountMsg name) → m1.account = m.account) ∧
      (¬(msg = Msg.KeyMsg KeyType.KeyEnter ∧ m.activeTab = 0) → w1.db = w.db)) := by
  refine ⟨fun name => rfl, ?_, fun msg m1 w1 c h => main.Update_frame W m w msg m1 w1 c h⟩
  intro h0 hopen
  simp [main.Update, h0, main.loadAccount, Start, hopen]

theorem main.Reachable_dispatch (W : Widgets) :
    ∀ (fuel : Nat) (m : main.model) (w : World) (msg : Msg) (m1 : main.model) (w1 : World),
      main.Reachable W m w → main.dispatch W fuel m w msg = .ok (m1, w1) → main.Reachable W m1 w1 := by
  intro fuel
  induction fuel with
  | zero =>
    intro m w msg m1 w1 hr hd
    simp [main.dispatch] at hd
  | succ k ih =>
    intro m w msg m1 w1 hr hd
    unfold main.dispatch at hd
    split at hd
    · cases hd
    · next m2 w2 nxt hu => exact ih m2 w2 nxt m1 w1 (main.Reachable.step msg hr hu) hd
    · next m2 w2 c _ hu =>
      simp only [Except.ok.injEq, Prod.mk.injEq] at hd
      obtain ⟨rfl, rfl⟩ := hd
      exact main.Reachable.step msg hr hu

theorem main.Reachable_session (W : Widgets) (fuel : Nat) :
    ∀ (msgs : List Msg) (m : main.model) (w : World) (m1 : main.model) (w1 : World),
      main.Reachable W m w → main.session W fuel m w msgs = .ok (m1, w1) → main.Reachable W m1 w1 := by
  intro msgs
  induction msgs with
  | nil =>
    intro m w m1 w1 hr hs
    simp only [main.session, Except.ok.injEq, Prod.mk.injEq] at hs
    obtain ⟨rfl, rfl⟩ := hs
    exact hr
  | cons msg rest ih =>
    intro m w m1 w1 hr hs
    unfold main.session at hs
    split at hs
    · cases hs
    · next m2 w2 hd => exact ih m2 w2 m1 w1 (main.Reachable_dispatch W fuel m w msg m2 w2 hr hd) hs

theorem sample.loaded_reachable : main.Reachable bubbles.widgets sample.loaded sample.loadedWorld :=
  main.Reachable_session bubbles.widgets 4
    [main.typeText "alice", main.press KeyType.KeyEnter, main.press KeyType.KeyTab]
    main.initialModel main.emptyWorld sample.loaded sample.loadedWorld
    (main.Reachable.start main.emptyWorld rfl) rfl

/-- Enter or Backspace on the items tab of a table without rows stops the process:
`SelectedRow()` is nil and indexing it panics. -/
theorem main.Update_no_rows (W : Widgets) (m : main.model) (w : World) (h1 : m.activeTab = 1)
    (hrows : m.itemsTab.itemsTable.rows = []) :
    main.Update W m w (Msg.KeyMsg KeyType.KeyEnter) = .error Failure.indexOutOfRange ∧
      main.Update W m w (Msg.KeyMsg KeyType.KeyBackspace) = .error Failure.indexOutOfRange := by
  have hsel : m.itemsTab.SelectedItem = .error Failure.indexOutOfRange := by
    simp only [itemstab.Model.SelectedItem, table.SelectedRow_of_rows_nil _ hrows]
  constructor
  · simp [main.Update, h1, hsel]
  · simp [main.Update, h1, hsel]

/-- The Delete key on the items tab only reaches the table widget: the store and
the items are untouched and no command is returned. -/
theorem main.Update_KeyDelete (W : Widgets) (m : main.model) (w : World) (h1 : m.activeTab = 1) :
    main.Update W m w (Msg.KeyMsg KeyType.KeyDelete) =
      .ok ({ m with itemsTab :=
              { m.itemsTab with
                itemsTable := W.tableUpdate m.itemsTab.itemsTable (Msg.KeyMsg KeyType.KeyDelete) } },
        w, Cmd.nil) := by
  simp [main.Update, main.propagate, h1, itemstab.Model.Update]

/-- The page number has no influence on what `ListTodos` returns. -/
theorem todo.ListTodos_page (w : World) (p q : Int) : ListTodos w p = ListTodos w q := by
  unfold ListTodos
  cases w.db with
  | none => rfl
  | some name => simp [DB.Find, DB.fresh, DB.Limit, DB.Offset]

/-- Claim C1, at its failing input.  After the account "alice" (no items yet) is
loaded the items tab is focused and the table has zero rows; pressing Enter
there, or Backspace, ends the session with an index-out-of-range panic instead
of being a no-op. -/
theorem C1_empty_items_enter_backspace_panic :
    (main.session bubbles.widgets 4 main.initialModel main.emptyWorld
        [main.typeText "alice", main.press KeyType.KeyEnter]).map
        (fun s => (s.1.activeTab, s.1.itemsTab.items, s.1.itemsTab.itemsTable.rows)) = .ok (1, [], []) ∧
      main.session bubbles.widgets 4 main.initialModel main.emptyWorld
        [main.typeText "alice", main.press KeyType.KeyEnter, main.press KeyType.KeyEnter] =
        .error Failure.indexOutOfRange ∧
      main.session bubbles.widgets 4 main.initialModel main.emptyWorld
        [main.typeText "alice", main.press KeyType.KeyEnter, main.press KeyType.KeyBackspace] =
        .error Failure.indexOutOfRange :=
  ⟨rfl, rfl, rfl⟩

/-- Claim C4, at its failing input.  With one item "Buy milk" listed and the items
tab focused, the Delete key leaves the store, the table and the focus as they
were and returns no command, whereas Backspace in the same state soft-deletes
the item and refreshes the list. -/
theorem C4_delete_key_deletes_nothing :
    (main.session bubbles.widgets 4 main.initialModel main.emptyWorld
        [main.typeText "alice", main.press KeyType.KeyEnter, main.press KeyType.KeyTab,
          main.typeText "Buy milk", main.press KeyType.KeyEnter]).map
        (fun s => (s.1.activeTab, s.1.itemsTab.itemsTable, s.2.files "alice")) =
        .ok (1, { rows := [["no", "Buy milk"]], cursor := 0 },
          [{ ID := 1, Deleted := false, Description := "Buy milk", Done := false }]) ∧
      (main.session bubbles.widgets 4 main.initialModel main.emptyWorld
        [main.typeText "alice", main.press KeyType.KeyEnter, main.press KeyType.KeyTab,
          main.typeText "Buy milk", main.press KeyType.KeyEnter, main.press KeyType.KeyDelete]).map
        (fun s => (s.1.activeTab, s.1.itemsTab.itemsTable, s.2.files "alice")) =
        .ok (1, { rows := [["no", "Buy milk"]], cursor := 0 },
          [{ ID := 1, Deleted := false, Description := "Buy milk", Done := false }]) ∧
      ((main.session bubbles.widgets 4 main.initialModel main.emptyWorld
        [main.typeText "alice", main.press KeyType.KeyEnter, main.press KeyType.KeyTab,
          main.typeText "Buy milk", main.press KeyType.KeyEnter]).bind
        (fun s => main.Update bubbles.widgets s.1 s.2 (main.press KeyType.KeyDelete))).map
        (fun r => r.2.2) = .ok Cmd.nil ∧
      (main.session bubbles.widgets 4 main.initialModel main.emptyWorld
        [main.typeText "alice", main.press KeyType.KeyEnter, main.press KeyType.KeyTab,
          main.typeText "Buy milk", main.press KeyType.KeyEnter, main.press KeyType.KeyBackspace]).map
        (fun s => (s.1.activeTab, s.1.itemsTab.itemsTable, s.2.files "alice")) =
        .ok (1, { rows := [], cursor := 0 },
          [{ ID := 1, Deleted := true, Description := "Buy milk", Done := false }]) :=
  ⟨rfl, rfl, rfl, rfl⟩

/-- Claim C8, at its failing input.  After 21 items are added to a new store,
`ListTodos(1)` and `ListTodos(2)` both return all 21 of them, without error;
the claim allows at most 20 on page 1 and exactly one on page 2. -/
theorem C8_ListTodos_returns_all_rows :
    (((Start main.emptyWorld "testing").bind
        (fun w => sample.addAll w (List.replicate 21 (sample.item "Tickle the cat")))).bind
        (fun w => ListTodos w 1)).map (fun r => (r.1.length, r.2)) = .ok (21, none) ∧
      (((Start main.emptyWorld "testing").bind
        (fun w => sample.addAll w (List.replicate 21 (sample.item "Tickle the cat")))).bind
        (fun w => ListTodos w 2)).map (fun r => (r.1.length, r.2)) = .ok (21, none) :=
  ⟨rfl, rfl⟩

/-- Claim C3 is false as stated: in the state `sample.loaded` (three tabs, tab 2
active) handling `UpdateTodoMsg` keeps three tabs but moves the active tab
to 1. -/
theorem C3_counterexample :
    (sample.loaded.tabs.length, sample.loaded.activeTab) = (3, 2) ∧
      (main.Update bubbles.widgets sample.loaded sample.loadedWorld (Msg.UpdateTodoMsg (-1))).map
        (fun r => (r.1.tabs.length, r.1.activeTab)) = .ok (3, 1) :=
  ⟨rfl, rfl⟩

/-- Claim C6 is false as stated: when an item "Tickle the cat" is stored and
marked done, and a second item with the same description and `Done = false` is
added, `FindTodo("Tickle the cat")` returns the first one, whose `Done` is
true. -/
theorem C6_counterexample :
    (Start main.emptyWorld "testing").bind (fun w0 =>
      (AddTodo w0 (sample.item "Tickle the cat")).bind (fun r1 =>
        (UpdateTodo r1.1 { r1.2 with Done := true }).bind (fun w2 =>
          (AddTodo w2 (sample.item "Tickle the cat")).bind (fun r3 =>
            FindTodo r3.1 "Tickle the cat")))) =
      .ok (some { ID := 1, Deleted := false, Description := "Tickle the cat", Done := true }, none) :=
  rfl

/-- Claim C7 is false as stated: when two items "Tickle the cat" are added and
the second one is deleted, `FindTodo("Tickle the cat")` still succeeds (it
returns the first one) instead of reporting not-found. -/
theorem C7_counterexample :
    (Start main.emptyWorld "testing").bind (fun w0 =>
      (AddTodo w0 (sample.item "Tickle the cat")).bind (fun r1 =>
        (AddTodo r1.1 (sample.item "Tickle the cat")).bind (fun r2 =>
          (DeleteTodo r2.1 (some r2.2)).bind (fun w3 =>
            FindTodo w3 "Tickle the cat")))) =
      .ok (some { ID := 1, Deleted := false, Description := "Tickle the cat", Done := false }, none) :=
  rfl

/-- Claim C10 is false as stated: after "alice" was submitted and loaded, the
user tabs back to the account tab, types one more character and presses Enter;
the store is re-opened for "alice2" and the account field becomes "alice2". -/
theorem C10_counterexample :
    (main.session bubbles.widgets 4 main.initialModel main.emptyWorld
        [main.typeText "alice", main.press KeyType.KeyEnter]).map
        (fun s => (s.1.account, s.2.db)) = .ok ("alice", some "alice") ∧
      (main.session bubbles.widgets 4 main.initialModel main.emptyWorld
        [main.typeText "alice", main.press KeyType.KeyEnter, main.press KeyType.KeyTab,
          main.press KeyType.KeyTab, main.typeText "2", main.press KeyType.KeyEnter]).map
        (fun s => (s.1.account, s.2.db)) = .ok ("alice2", some "alice2") :=
  ⟨rfl, rfl⟩

/-- Claim C2 at a concrete input: a view with the cursor on index 2 is refreshed
from a store that lists two items. -/
theorem C2_refresh_cursor_witness :
    sample.store.db = some "alice" ∧
    ∃ m1 : itemstab.Model,
      sample.view.Update bubbles.widgets sample.store (Msg.UpdateTodoMsg (-1)) = .ok (m1, Cmd.nil) ∧
      ListTodos sample.store 1 = .ok (m1.items, none) ∧
      m1.itemsTable.rows.length = m1.items.length ∧
      (0 ≤ sample.view.itemsTable.Cursor → sample.view.itemsTable.Cursor < (m1.items.length : Int) →
        m1.itemsTable.Cursor = sample.view.itemsTable.Cursor) ∧
      (1 ≤ m1.items.length → (m1.items.length : Int) ≤ sample.view.itemsTable.Cursor →
        m1.itemsTable.Cursor = (m1.items.length : Int) - 1) ∧
      (m1.items.length = 0 → m1.itemsTable.SelectedRow = none) ∧
      (m1.items ≠ [] →
        0 ≤ m1.itemsTable.Cursor ∧ m1.itemsTable.Cursor ≤ (m1.items.length : Int) - 1) :=
  ⟨rfl, C2_refresh_cursor bubbles.widgets sample.view sample.store "alice" (-1) rfl⟩

/-- Claim C3 (amended) at a concrete input: the state `sample.loaded`. -/
theorem C3_refresh_keeps_tabs_witness :
    sample.loadedWorld.db = some "alice" ∧ 3 ≤ sample.loaded.tabs.length ∧
    ∃ m1 : main.model,
      main.Update bubbles.widgets sample.loaded sample.loadedWorld (Msg.UpdateTodoMsg (-1)) =
        .ok (m1, sample.loadedWorld, Cmd.nil) ∧
      m1.tabs = sample.loaded.tabs ∧ m1.activeTab = 1 ∧
      m1.account = sample.loaded.account ∧ m1.accountInput = sample.loaded.accountInput ∧
      m1.descriptionTextarea = sample.loaded.descriptionTextarea ∧
      ListTodos sample.loadedWorld 1 = .ok (m1.itemsTab.items, none) :=
  ⟨rfl, by decide,
    C3_refresh_keeps_tabs bubbles.widgets sample.loaded sample.loadedWorld "alice" (-1) rfl (by decide)⟩

/-- Claim C5 at a concrete input: the reachable state `sample.loaded`. -/
theorem C5_activeTab_valid_witness :
    main.Reachable bubbles.widgets sample.loaded sample.loadedWorld ∧
    (0 ≤ sample.loaded.activeTab ∧ sample.loaded.activeTab < (sample.loaded.tabs.length : Int)) ∧
      main.Update bubbles.widgets sample.loaded sample.loadedWorld (Msg.KeyMsg KeyType.KeyTab) =
        .ok ({ sample.loaded with
                activeTab := (sample.loaded.activeTab + 1) % (sample.loaded.tabs.length : Int) },
          sample.loadedWorld, Cmd.nil) :=
  ⟨sample.loaded_reachable,
    C5_activeTab_valid bubbles.widgets sample.loaded sample.loadedWorld sample.loaded_reachable⟩

/-- Claim C6 (amended) at a concrete input: a second "Buy milk" is added to
`sample.store`, which already lists a live "Buy milk". -/
theorem C6_add_then_find_witness :
    sample.store.db = some "alice" ∧ (sample.item "Buy milk").ID = 0 ∧
    (sample.item "Buy milk").Deleted = false ∧ (sample.item "Buy milk").Done = false ∧
    ∃ w1 item1 found,
      AddTodo sample.store (sample.item "Buy milk") = .ok (w1, item1) ∧
      FindTodo w1 (sample.item "Buy milk").Description = .ok (some found, none) ∧
      found.Description = (sample.item "Buy milk").Description ∧
      ((∀ r ∈ sample.store.files "alice", r.Deleted = false →
          r.Description = (sample.item "Buy milk").Description → r.Done = false) →
        found.Done = false) ∧
      ((∀ r ∈ sample.store.files "alice",
          r.Description = (sample.item "Buy milk").Description → r.Deleted = true) → found = item1) ∧
      (∀ pre r post, sample.store.files "alice" = pre ++ r :: post →
        r.Deleted = false → r.Description = (sample.item "Buy milk").Description →
        (∀ x ∈ pre, x.Deleted = true ∨ x.Description ≠ (sample.item "Buy milk").Description) →
        found = r) ∧
      (∀ r, FindTodo sample.store (sample.item "Buy milk").Description = .ok (some r, none) →
        found = r) ∧
      item1 = { sample.item "Buy milk" with ID := nextID (sample.store.files "alice") } ∧
      w1.files "alice" = sample.store.files "alice" ++ [item1] :=
  ⟨rfl, rfl, rfl, rfl, C6_add_then_find sample.store "alice" (sample.item "Buy milk") rfl rfl rfl rfl⟩

/-- Claim C7 (amended) at a concrete input: "Feed cat" is added to `sample.store`
and deleted again. -/
theorem C7_add_delete_then_find_witness :
    sample.store.db = some "alice" ∧ (sample.item "Feed cat").ID = 0 ∧
    ∃ w1 item1 w2,
      AddTodo sample.store (sample.item "Feed cat") = .ok (w1, item1) ∧
      DeleteTodo w1 (some item1) = .ok w2 ∧
      FindTodo w2 (sample.item "Feed cat").Description =
        FindTodo sample.store (sample.item "Feed cat").Description ∧
      ((∀ r ∈ sample.store.files "alice",
          r.Description = (sample.item "Feed cat").Description → r.Deleted = true) →
        FindTodo w2 (sample.item "Feed cat").Description = .ok (none, some "No rows found")) :=
  ⟨rfl, rfl, C7_add_delete_then_find sample.store "alice" (sample.item "Feed cat") rfl rfl⟩

/-- Claim C9 at a concrete input: "Buy milk" is toggled twice in `sample.store`. -/
theorem C9_toggle_twice_witness :
    sample.store.db = some "alice" ∧ WF (sample.store.files "alice") ∧
    FindTodo sample.store "Buy milk" =
      .ok (some { ID := 1, Deleted := false, Description := "Buy milk", Done := true }, none) ∧
    ∃ w1 w2,
      main.toggleTodo sample.store "Buy milk" = .ok (w1, Cmd.send (Msg.UpdateTodoMsg (-1))) ∧
      main.toggleTodo w1 "Buy milk" = .ok (w2, Cmd.send (Msg.UpdateTodoMsg (-1))) ∧
      FindTodo w1 "Buy milk" =
        .ok (some { ID := 1, Deleted := false, Description := "Buy milk", Done := !true }, none) ∧
      FindTodo w2 "Buy milk" =
        .ok (some { ID := 1, Deleted := false, Description := "Buy milk", Done := true }, none) ∧
      w1.files "alice" = (sample.store.files "alice").map
        (fun r => if r = { ID := 1, Deleted := false, Description := "Buy milk", Done := true }
          then { r with Done := !r.Done } else r) ∧
      (∀ n, n ≠ "alice" → w1.files n = sample.store.files n) ∧
      (∀ n, w2.files n = sample.store.files n) ∧
      w1.db = sample.store.db ∧ w2.db = sample.store.db :=
  ⟨rfl, by decide, rfl,
    C9_toggle_twice sample.store "alice" "Buy milk"
      { ID := 1, Deleted := false, Description := "Buy milk", Done := true } rfl (by decide) rfl⟩

/-- Claim C10 (amended) at a concrete input: a `loadAccountMsg` for "bob" reaches
the state `sample.loaded`, whose account is "alice". -/
theorem C10_account_changes_witness :
    sample.loaded.account = "alice" ∧
    main.Update bubbles.widgets sample.loaded sample.loadedWorld (Msg.loadAccountMsg "bob") =
      .ok ({ sample.loaded with account := "bob" }, sample.loadedWorld,
        Cmd.send itemstab.UpdateTodoList) :=
  ⟨rfl, (C10_account_changes bubbles.widgets sample.loaded sample.loadedWorld).1 "bob"⟩

theorem gorm.WF_nil : WF [] := by
  simp [WF]

theorem gorm.mem_insertRow (x : TodoItem) (t : Table) (r : TodoItem) :
    r ∈ insertRow x t ↔ r = x ∨ r ∈ t := by
  induction t with
  | nil => simp [insertRow]
  | cons y ys ih =>
    unfold insertRow
    split_ifs
    · simp
    · simp only [List.mem_cons, ih]; tauto

theorem gorm.pairwise_insertRow (x : TodoItem) (t : Table)
    (hp : t.Pairwise (fun a b => a.ID < b.ID)) (hx : ∀ r ∈ t, r.ID ≠ x.ID) :
    (insertRow x t).Pairwise (fun a b => a.ID < b.ID) := by
  induction t with
  | nil => simp [insertRow]
  | cons y ys ih =>
    rw [List.pairwise_cons] at hp
    unfold insertRow
    split_ifs with hlt
    · rw [List.pairwise_cons]
      refine ⟨?_, List.pairwise_cons.2 hp⟩
      intro r hr
      rcases List.mem_cons.1 hr with h | h
      · rw [h]; exact hlt
      · exact lt_trans hlt (hp.1 r h)
    · rw [List.pairwise_cons]
      refine ⟨?_, ih hp.2 (fun r hr => hx r (List.mem_cons_of_mem _ hr))⟩
      intro r hr
      rcases (mem_insertRow x ys r).1 hr with h | h
      · rw [h]
        have := hx y (List.mem_cons_self _ _)
        omega
      · exact hp.1 r h

/-- Creating a row keeps the keys of the table sound. -/
theorem gorm.WF_Create (t : Table) (item : TodoItem) (h : WF t) : WF (Create t item).1 := by
  have hp : t.Pairwise (fun a b => a.ID < b.ID) := List.pairwise_map.1 h.1
  unfold Create
  split_ifs with h0 hany
  · refine ⟨List.pairwise_map.2 ?_, ?_⟩
    · rw [List.pairwise_append]
      refine ⟨hp, List.pairwise_singleton _ _, ?_⟩
      intro a ha b hb
      rw [List.mem_singleton] at hb
      rw [hb]
      exact lt_nextID t a ha
    · intro r hr
      rcases List.mem_append.1 hr with h1 | h1
      · exact h.2 r h1
      · rw [List.mem_singleton] at h1
        rw [h1]; simp [nextID]
  · exact h
  · have hx : ∀ r ∈ t, r.ID ≠ item.ID := by
      intro r hr hc
      apply hany
      rw [List.any_eq_true]
      exact ⟨r, hr, by simp [hc]⟩
    refine ⟨List.pairwise_map.2 (pairwise_insertRow item t hp hx), ?_⟩
    intro r hr
    rcases (mem_insertRow item t r).1 hr with h1 | h1
    · rw [h1]; exact h0
    · exact h.2 r h1

theorem gorm.WF_map_keys (t : Table) (f : TodoItem → TodoItem) (hf : ∀ r ∈ t, (f r).ID = r.ID)
    (h : WF t) : WF (t.map f) := by
  have hids : (t.map f).map (fun r => r.ID) = t.map (fun r => r.ID) := by
    rw [List.map_map]
    exact List.map_congr_left (fun r hr => hf r hr)
  refine ⟨by rw [hids]; exact h.1, ?_⟩
  intro r hr
  obtain ⟨s, hs, hsr⟩ := List.mem_map.1 hr
  rw [← hsr, hf s hs]
  exact h.2 s hs

/-- Deleting a row keeps the keys of the table sound. -/
theorem gorm.WF_Delete (t : Table) (item : Option TodoItem) (h : WF t) : WF (Delete t item).1 := by
  unfold Delete
  split
  · exact h
  · split_ifs
    · exact h
    · apply WF_map_keys _ _ _ h
      intro r _
      split_ifs <;> rfl

/-- Saving a row keeps the keys of the table sound. -/
theorem gorm.WF_Save (t : Table) (item : TodoItem) (h : WF t) : WF (Save t item).1 := by
  unfold Save
  split_ifs with h0 h1 h2
  · exact WF_Create t item h
  · apply WF_map_keys _ _ _ h
    intro r _
    split_ifs with hc
    · exact hc.1.symm
    · rfl
  · apply WF_map_keys _ _ _ h
    intro r _
    split_ifs with hc
    · exact hc.symm
    · rfl
  · have hp : t.Pairwise (fun a b => a.ID < b.ID) := List.pairwise_map.1 h.1
    have hx : ∀ r ∈ t, r.ID ≠ item.ID := by
      intro r hr hc
      apply h2
      rw [List.any_eq_true]
      exact ⟨r, hr, by simp [hc]⟩
    refine ⟨List.pairwise_map.2 (pairwise_insertRow item t hp hx), ?_⟩
    intro r hr
    rcases (mem_insertRow item t r).1 hr with h3 | h3
    · rw [h3]; exact h0
    · exact h.2 r h3

/-- Backspace on the items tab, with a row under the cursor, is `deleteTodo` of
that row's description. -/
theorem main.Update_KeyBackspace (W : Widgets) (m : main.model) (w : World) (d : String)
    (h1 : m.activeTab = 1) (hsel : m.itemsTab.SelectedItem = .ok d) :
    main.Update W m w (Msg.KeyMsg KeyType.KeyBackspace) =
      (main.deleteTodo w d).map (fun r => (m, r.1, r.2)) := by
  simp only [main.Update, h1, if_true, hsel]
  cases main.deleteTodo w d <;> rfl

/-- Away from the items tab neither Delete nor Backspace writes to the store. -/
theorem main.Update_delete_keys_other_tab (W : Widgets) (m : main.model) (w : World)
    (m1 : main.model) (w1 : World) (c : Cmd) (h1 : m.activeTab ≠ 1) :
    (main.Update W m w (Msg.KeyMsg KeyType.KeyDelete) = .ok (m1, w1, c) → w1 = w) ∧
      (main.Update W m w (Msg.KeyMsg KeyType.KeyBackspace) = .ok (m1, w1, c) → w1 = w) := by
  constructor
  · intro h
    exact (main.propagate_frame W m w _ m1 w1 c (by simpa only [main.Update] using h)).2.2.2.1
  · intro h
    simp only [main.Update, h1, if_false] at h
    exact (main.propagate_frame W m w _ m1 w1 c h).2.2.2.1

/-- The part of pagination that does hold: after new items are added one by one,
`ListTodos` (for any page number) lists what was listed before followed by the
added items, in the order in which they were added. -/
theorem todo.ListTodos_after_addAll (items : List TodoItem) (p : Int) :
    ∀ (w : World) (name : String), w.db = some name →
      (∀ it ∈ items, it.ID = 0 ∧ it.Deleted = false) →
      ∃ w1 listed,
        sample.addAll w items = .ok w1 ∧ ListTodos w1 p = .ok (listed, none) ∧
        listed.map (fun r => (r.Description, r.Done)) =
          ((w.files name).filter (fun r => !r.Deleted)).map (fun r => (r.Description, r.Done)) ++
            items.map (fun r => (r.Description, r.Done)) := by
  induction items with
  | nil =>
    intro w name hdb _
    exact ⟨w, _, rfl, ListTodos_open w name p hdb, by simp⟩
  | cons it rest ih =>
    intro w name hdb hnew
    have hit := hnew it (List.mem_cons_self _ _)
    have hdb1 : (w.setTable name (w.files name ++ [{ it with ID := nextID (w.files name) }])).db =
        some name := by simpa [db_setTable] using hdb
    obtain ⟨w1, listed, hadd, hlist, hmap⟩ :=
      ih (w.setTable name (w.files name ++ [{ it with ID := nextID (w.files name) }])) name hdb1
        (fun x hx => hnew x (List.mem_cons_of_mem _ hx))
    refine ⟨w1, listed, ?_, hlist, ?_⟩
    · simp only [sample.addAll, AddTodo_new w name it hdb hit.1]
      exact hadd
    · rw [hmap, files_setTable]
      simp [List.filter_append, hit.2]
